import Mathlib

/-!
Verification development for the StyLua binary resolution, version
reconciliation and acquisition engine (stylua-vscode).

The definitions below are a shallow embedding of the TypeScript sources:
  - github.ts        : releaseFromJson, GitHub.getAllReleases, GitHub.getRelease
  - utilities.ts     : getAssetFilenamePatternForPlatform, getDownloadOutputFilename
  - download.ts      : getStyluaVersion, StyluaDownloader.findStylua,
                       StyluaDownloader.ensureStyluaExists, StyluaDownloader.downloadStylua

JavaScript strings are modelled as `String`/`List Char` (the sources only deal
with ASCII data, so UTF-16 code-unit slicing coincides with character slicing).
JavaScript `null`/`undefined` option values are modelled with `Option`,
truthiness of a string option is explicit (`truthy`), and code paths that can
throw return `Except`.
-/

/-! ## JavaScript string primitives used by the sources -/

/-- JavaScript whitespace (the characters relevant to `String.prototype.trim`
for the ASCII range handled by this program). -/
def isJsWs (c : Char) : Bool :=
  c = ' ' || c = '\t' || c = '\n' || c = '\r' || c = '\x0b' || c = '\x0c'

/-- Model of `String.prototype.trim` on a character list: strip leading and
trailing whitespace. -/
def jsTrimList (cs : List Char) : List Char :=
  ((cs.dropWhile isJsWs).reverse.dropWhile isJsWs).reverse

/-- Model of `s.startsWith(pat)` from JavaScript. -/
def jsStartsWith (s pat : String) : Bool :=
  pat.data.isPrefixOf s.data

/-- JavaScript truthiness of a `string | null | undefined` value: `null`,
`undefined` and the empty string are falsy. -/
def truthy : Option String → Bool
  | none => false
  | some s => s ≠ ""

/-! ## Data model (github.ts)

`GitHubRelease` is the parsed release record: `{ assets, htmlUrl, tagName }`. -/

structure GHAsset where
  downloadUrl : String
  name : String
deriving DecidableEq

structure GitHubRelease where
  assets : List GHAsset
  htmlUrl : String
  tagName : String
deriving DecidableEq

/-! ## Untyped JSON values and JavaScript property access

`releaseFromJson` works over the untyped payload of `response.json()`.
JSON values parsed from a response body are one of: null, boolean, number,
string, array, object. -/

inductive Json where
  | null : Json
  | bool (b : Bool) : Json
  | num (n : Int) : Json
  | str (s : String) : Json
  | arr (xs : List Json) : Json
  | obj (fields : List (String × Json)) : Json

/-- `typeof json !== "object"` in JavaScript: true exactly for booleans,
numbers and strings here (note `typeof null === "object"`). -/
def jsTypeofNotObject : Json → Bool
  | .bool _ => true
  | .num _ => true
  | .str _ => true
  | _ => false

def isNull : Json → Bool
  | .null => true
  | _ => false

def isArrayJson : Json → Bool
  | .arr _ => true
  | _ => false

/-- The value of a JavaScript property read: either `undefined` or a JSON
value. -/
inductive JsVal where
  | undefined : JsVal
  | val (j : Json) : JsVal

def lookupField : List (String × Json) → String → JsVal
  | [], _ => .undefined
  | (k, v) :: rest, key => if k = key then .val v else lookupField rest key

/-- JavaScript property access `j.key`. Reading a property of `null` throws a
TypeError; reading a missing property of any other value yields `undefined`
(the property names used by the sources are not built-ins of arrays, strings
or numbers). -/
def getProp (j : Json) (key : String) : Except Unit JsVal :=
  match j with
  | .null => .error ()
  | .obj fields => .ok (lookupField fields key)
  | _ => .ok .undefined

/-- `typeof v === "string" ? v : ""` applied to a property-read result. -/
def strOrEmpty : JsVal → String
  | .val (.str s) => s
  | _ => ""

/-- `Array.isArray(v)` applied to a property-read result. -/
def jsValIsArray : JsVal → Bool
  | .val (.arr _) => true
  | _ => false

def jsValElems : JsVal → List Json
  | .val (.arr xs) => xs
  | _ => []

/-- The asset mapper inside `releaseFromJson`:
`{ downloadUrl: typeof asset.browser_download_url === "string" ? ... : "",
   name: typeof asset.name === "string" ? ... : "" }`. -/
def assetFromJson (asset : Json) : Except Unit GHAsset :=
  match getProp asset "browser_download_url" with
  | .error e => .error e
  | .ok d =>
      match getProp asset "name" with
      | .error e => .error e
      | .ok n => .ok ⟨strOrEmpty d, strOrEmpty n⟩

/-- Embedding of `releaseFromJson` (github.ts lines 33-52): a non-object
(by JavaScript `typeof`) yields the all-default record; otherwise each field
is read defensively and defaulted when missing or of the wrong type.
Property reads on `null` throw, which the `Except` layer records. -/
def releaseFromJson (json : Json) : Except Unit GitHubRelease :=
  if jsTypeofNotObject json then
    .ok ⟨[], "", ""⟩
  else
    match getProp json "assets" with
    | .error e => .error e
    | .ok assetsProp =>
        match
          if jsValIsArray assetsProp then
            (jsValElems assetsProp).mapM assetFromJson
          else
            .ok []
        with
        | .error e => .error e
        | .ok assets =>
            match getProp json "html_url" with
            | .error e => .error e
            | .ok htmlProp =>
                match getProp json "tag_name" with
                | .error e => .error e
                | .ok tagProp => .ok ⟨assets, strOrEmpty htmlProp, strOrEmpty tagProp⟩

/-- Embedding of `GitHub.getAllReleases` (github.ts lines 120-123) applied to
the JSON of the releases endpoint:
`Array.isArray(json) ? json.map(releaseFromJson) : []`. -/
def getAllReleasesModel (json : Json) : Except Unit (List GitHubRelease) :=
  match json with
  | .arr xs => xs.mapM releaseFromJson
  | _ => .ok []

/-- A payload is hazard-free for `releaseFromJson` when it is not `null` and
its `assets` property, when it is an array, contains no `null` element (these
are exactly the inputs on which every property access succeeds). -/
def jsonSafe : Json → Bool
  | .null => false
  | .obj fields =>
      match lookupField fields "assets" with
      | .val (.arr xs) => xs.all fun x => !isNull x
      | _ => true
  | _ => true

/-! ## A small regular-expression engine

`getAssetFilenamePatternForPlatform` (utilities.ts) builds a JavaScript
`RegExp` and `downloadStylua` uses its `test` method. The regex dialect used
there (literals, an optional group, a character class with `+`, an
alternation group, the `.` wildcard) is embedded below with Brzozowski
derivatives; `rxTest` is the unanchored `RegExp.prototype.test`. -/

inductive Rx where
  | emp : Rx
  | eps : Rx
  | chr (c : Char) : Rx
  | cls (p : Char → Bool) : Rx
  | alt (a b : Rx) : Rx
  | cat (a b : Rx) : Rx
  | star (a : Rx) : Rx

def Rx.isEmp : Rx → Bool
  | .emp => true
  | _ => false

def Rx.isEps : Rx → Bool
  | .eps => true
  | _ => false

/-- Smart alternation: drops the empty language. -/
def Rx.alt' (a b : Rx) : Rx :=
  if a.isEmp then b else if b.isEmp then a else .alt a b

/-- Smart concatenation: absorbs the empty language and the empty string. -/
def Rx.cat' (a b : Rx) : Rx :=
  if a.isEmp || b.isEmp then .emp
  else if a.isEps then b
  else if b.isEps then a
  else .cat a b

def Rx.nullable : Rx → Bool
  | .emp => false
  | .eps => true
  | .chr _ => false
  | .cls _ => false
  | .alt a b => a.nullable || b.nullable
  | .cat a b => a.nullable && b.nullable
  | .star _ => true

def Rx.deriv : Rx → Char → Rx
  | .emp, _ => .emp
  | .eps, _ => .emp
  | .chr d, c => if c = d then .eps else .emp
  | .cls p, c => if p c then .eps else .emp
  | .alt a b, c => Rx.alt' (a.deriv c) (b.deriv c)
  | .cat a b, c =>
      if a.nullable then Rx.alt' (Rx.cat' (a.deriv c) b) (b.deriv c)
      else Rx.cat' (a.deriv c) b
  | .star a, c => Rx.cat' (a.deriv c) (.star a)

/-- Anchored (whole-word) match. -/
def rxMatch (r : Rx) (cs : List Char) : Bool :=
  (cs.foldl Rx.deriv r).nullable

def rxAny : Rx := .cls fun _ => true

/-- Model of `RegExp.prototype.test`: the pattern matches some contiguous
substring of the input. -/
def rxTest (r : Rx) (s : String) : Bool :=
  rxMatch (.cat (.star rxAny) (.cat r (.star rxAny))) s.data

/-- A literal string as a regex. -/
def litRx (s : String) : Rx :=
  s.data.foldr (fun c r => .cat (.chr c) r) .eps

def optRx (r : Rx) : Rx := .alt .eps r

def plusRx (r : Rx) : Rx := .cat r (.star r)

/-! ## utilities.ts -/

/-- The error thrown by utilities.ts for an unsupported platform
(`name = "BadPlatformError"`, the spec's UnsupportedPlatform). -/
inductive UtilError where
  | badPlatform : UtilError
deriving DecidableEq

/-- Embedding of `getDownloadOutputFilename` (utilities.ts lines 7-25). -/
def getDownloadOutputFilename (platform : String) : Except UtilError String :=
  if platform = "win32" then .ok "stylua.exe"
  else if platform = "linux" then .ok "stylua"
  else if platform = "darwin" then .ok "stylua"
  else .error .badPlatform

/-- The character class `[\dw\-\.]` of the version segment: inside a class,
this is a digit, the literal letter w, a hyphen or a dot. -/
def versionClassChar (c : Char) : Bool :=
  c.isDigit || c = 'w' || c = '-' || c = '.'

/-- The `platformPattern` fragment chosen by the first switch of
`getAssetFilenamePatternForPlatform`. -/
def platformRx (platform : String) : Except UtilError Rx :=
  if platform = "win32" then .ok (.alt (litRx "windows") (litRx "win64"))
  else if platform = "linux" then .ok (litRx "linux")
  else if platform = "darwin" then .ok (litRx "macos")
  else .error .badPlatform

/-- The `architecturePattern` fragment chosen by the second switch: an
unrecognized architecture contributes the empty fragment. -/
def archRx (architecture : String) : Rx :=
  if architecture = "arm64" then litRx "aarch64"
  else if architecture = "x64" then litRx "x86_64"
  else .eps

/-- The regex built at the end of `getAssetFilenamePatternForPlatform` from
the platform fragment and the architecture fragment:
`stylua(-[\dw\-\.]+)?-<platform>(-<arch>)?.zip` where the final `.` is the
wildcard. -/
def assetRx (platPat archPat : Rx) : Rx :=
  .cat (litRx "stylua")
   (.cat (optRx (.cat (.chr '-') (plusRx (.cls versionClassChar))))
    (.cat (.chr '-')
     (.cat platPat
      (.cat (optRx (.cat (.chr '-') archPat))
       (.cat rxAny (litRx "zip"))))))

/-- Embedding of `getAssetFilenamePatternForPlatform` (utilities.ts lines
27-71). -/
def getAssetFilenamePatternForPlatform (platform architecture : String) :
    Except UtilError Rx :=
  match platformRx platform with
  | .error e => .error e
  | .ok p => .ok (assetRx p (archRx architecture))

/-- The compiled pattern, with the empty language standing in for the thrown
error (used only to build concrete test environments). -/
def computedPattern (platform architecture : String) : Rx :=
  match getAssetFilenamePatternForPlatform platform architecture with
  | .ok r => r
  | .error _ => .emp

/-! ## Semantic versions (the node-semver contract consumed by download.ts)

The sources call `semver.coerce`, `semver.parse` and `semver.neq` from the
external semver library. The numeric core of that contract is embedded here:
`parseSemver` accepts exactly an optionally-v-prefixed `major.minor.patch`
triple of numerals (what `semver.parse` accepts on the version strings this
program handles), while `coerceSemver` pulls the first run of numeric
components out of an arbitrary string, defaulting missing components to 0
(what `semver.coerce` does). `semver.neq` on such values is plain
inequality of the triples. -/

structure SemVer where
  major : Nat
  minor : Nat
  patch : Nat
deriving DecidableEq

def digitsToNat (cs : List Char) : Nat :=
  cs.foldl (fun n c => n * 10 + (c.toNat - 48)) 0

/-- A strict numeric identifier: nonempty, all digits, no leading zero. -/
def parseNumId (cs : List Char) : Option Nat :=
  match cs with
  | [] => none
  | [c] => if c.isDigit then some (digitsToNat [c]) else none
  | c :: rest =>
      if c.isDigit && c ≠ '0' && rest.all Char.isDigit then some (digitsToNat (c :: rest))
      else none

/-- Model of `semver.parse` on plain release versions: trim, allow one leading
`v`, then exactly three dot-separated strict numerals. -/
def parseSemver (s : String) : Option SemVer :=
  let cs := jsTrimList s.data
  let cs := match cs with
    | 'v' :: rest => rest
    | other => other
  match cs.splitOn '.' with
  | [a, b, c] =>
      match parseNumId a, parseNumId b, parseNumId c with
      | some x, some y, some z => some ⟨x, y, z⟩
      | _, _, _ => none
  | _ => none

/-- After the major component, `semver.coerce` takes up to two further
dot-digit-run components; a missing component is 0. -/
def coerceTail : List Char → Option Nat × List Char
  | '.' :: cs =>
      match cs.takeWhile Char.isDigit with
      | [] => (none, '.' :: cs)
      | ds => (some (digitsToNat ds), cs.dropWhile Char.isDigit)
  | cs => (none, cs)

/-- Model of `semver.coerce`: find the first digit run, then optional `.n`
components; anything else is discarded and missing components default to 0. -/
def coerceSemver (s : String) : Option SemVer :=
  let cs := s.data.dropWhile fun c => !c.isDigit
  match cs.takeWhile Char.isDigit with
  | [] => none
  | ds =>
      let rest := cs.dropWhile Char.isDigit
      let (mi, rest2) := coerceTail rest
      let (pa, _) := coerceTail rest2
      some ⟨digitsToNat ds, mi.getD 0, pa.getD 0⟩

/-! ## getStyluaVersion (download.ts lines 24-32)

`executeStylua(path, ["--version"])` produces the stdout of the binary; the
parse is `stdout.trim().slice("stylua ".length)`. Modelled at the character
level (JS `slice` drops code units; the data is ASCII). -/

/-- Embedding of the version parse in `getStyluaVersion`: trim the stdout and
drop the first `"stylua ".length` characters. -/
def parseVersionOutput (stdout : String) : String :=
  String.mk ((jsTrimList stdout.data).drop "stylua ".length)

/-! ## GitHub.getRelease (github.ts lines 125-139) -/

inductive GHError where
  | noReleaseFound : GHError
deriving DecidableEq

/-- The tag normalization in `getRelease`:
`version.startsWith("v") ? version : "v" + version`. -/
def normalizeTag (version : String) : String :=
  if jsStartsWith version "v" then version else "v" ++ version

/-- Embedding of `GitHub.getRelease`. The "latest" branch queries the
dedicated latest endpoint (its parsed record is the `latestRelease`
parameter); otherwise the normalized tag is scanned for in `getAllReleases()`
(the `releases` parameter), throwing NoReleaseFoundError when nothing
matches. -/
def getRelease (latestRelease : GitHubRelease) (releases : List GitHubRelease)
    (version : String) : Except GHError GitHubRelease :=
  if version = "latest" then .ok latestRelease
  else
    match releases.find? (fun r => jsStartsWith r.tagName (normalizeTag version)) with
    | some r => .ok r
    | none => .error .noReleaseFound

/-! ## The acquisition pipeline: StyluaDownloader.downloadStylua
(download.ts lines 212-239)

The body scans `release.assets` for the first name accepted by the computed
asset pattern. With no match the `async` function falls off the end of the
loop, so its promise resolves with `undefined` and no write stream is ever
created. With a match, `createWriteStream(storagePath, { mode: 0o755 })`
opens (and truncates) the file at the storage path itself, then the fetched
body is unzipped; only the archive entry whose path equals the expected
output filename is piped into the file, with `resolve` wired to its finish
event and `reject` to its error event. A fetch or unzip-setup failure, or an
archive with no entry of the expected name, leaves the outer promise
unsettled.

The model below captures the settle status of the returned promise and the
final content of the storage path. The release argument stands for the
record already resolved by `github.getRelease(version)`, `assetTest` for the
compiled pattern of `getAssetFilenamePattern()` and `outputFilename` for
`getDownloadOutputFilename()`. -/

inductive Outcome where
  | resolved : Outcome
  | rejected : Outcome
  | pending : Outcome
deriving DecidableEq

/-- How the bytes of the matched archive entry arrive: completely, or cut
short by a stream error after a partial run of bytes. -/
inductive Delivery where
  | full (bytes : List Nat) : Delivery
  | truncated (bytes : List Nat) : Delivery
deriving DecidableEq

structure ZipEntry where
  entryPath : String
  delivery : Delivery
deriving DecidableEq

/-- The fate of `fetch(asset.downloadUrl).then(unzip)`: a network or
decompression-setup error, or a parsed stream of entries. -/
inductive FetchResult where
  | networkError : FetchResult
  | entries (es : List ZipEntry) : FetchResult
deriving DecidableEq

structure DlEnv where
  release : GitHubRelease
  assetTest : String → Bool
  outputFilename : String
  prevFile : Option (List Nat)
  fetchOutcome : FetchResult

/-- Embedding of `downloadStylua`: the settle status of the returned promise
and the final content of the file at the storage path. -/
def runDownload (e : DlEnv) : Outcome × Option (List Nat) :=
  match e.release.assets.find? (fun a => e.assetTest a.name) with
  | none => (.resolved, e.prevFile)
  | some _ =>
      match e.fetchOutcome with
      | .networkError => (.pending, some [])
      | .entries es =>
          match es.find? (fun en => en.entryPath = e.outputFilename) with
          | none => (.pending, some [])
          | some en =>
              match en.delivery with
              | .full bs => (.resolved, some bs)
              | .truncated bs => (.rejected, some bs)

/-! ## The binary resolver: StyluaDownloader.findStylua and
StyluaDownloader.ensureStyluaExists (download.ts lines 46-182)

The configuration surface, the PATH lookup, the file system and the version
queries are collected into one environment record; `findStylua` and
`ensureStyluaExists` are pure functions of it. -/

inductive ResolveMode where
  | bundled : ResolveMode
  | configuration : ResolveMode
  | path : ResolveMode
deriving DecidableEq

structure StyluaInfo where
  paths : String × String
  resolveMode : ResolveMode
  version : Option String
deriving DecidableEq

inductive StyluaType where
  | standard : StyluaType
  | react : StyluaType
deriving DecidableEq

structure Env where
  /-- `stylua.styluaPath` (null or a string). -/
  settingPath : Option String
  /-- `stylua.styluaRoactPath`. -/
  reactSettingPath : Option String
  /-- `stylua.searchBinaryInPATH`. -/
  searchBinaryInPATH : Bool
  /-- The result of `which("stylua", { nothrow: true })`. -/
  whichStylua : Option String
  /-- `getStyluaVersion p`: the parsed `--version` output of the binary at
  path p, or none when the invocation fails. -/
  versionOf : String → Option String
  /-- `vscode.Uri.joinPath(storageDirectory, getDownloadOutputFilename()).fsPath`. -/
  storagePath : String
  /-- `fileExists p`. -/
  fileExistsAt : String → Bool
  /-- `getDesiredVersion()`. -/
  desiredVersion : String
  /-- `stylua.disableVersionCheck`. -/
  disableVersionCheck : Bool
  /-- The outcome of `github.getRelease("latest")`. -/
  getLatest : Except Unit GitHubRelease

/-- Tiers 2 and 3 of `findStylua`: the PATH lookup (when enabled) and the
bundled fallback. The second component records whether `which` was consulted. -/
def findFallback (e : Env) : StyluaInfo × Bool :=
  if e.searchBinaryInPATH then
    match e.whichStylua with
    | some rp =>
        if rp ≠ "" then
          if truthy (e.versionOf rp) then (⟨(rp, rp), .path, none⟩, true)
          else (⟨(e.storagePath, e.storagePath), .bundled, none⟩, true)
        else (⟨(e.storagePath, e.storagePath), .bundled, none⟩, true)
    | none => (⟨(e.storagePath, e.storagePath), .bundled, none⟩, true)
  else (⟨(e.storagePath, e.storagePath), .bundled, none⟩, false)

/-- Embedding of `findStylua` (download.ts lines 46-90): a truthy
`stylua.styluaPath` short-circuits into Configuration mode — paired with the
secondary path when `stylua.styluaRoactPath` is also truthy, duplicated
otherwise — and only a falsy setting reaches the PATH and bundled tiers. -/
def findStylua (e : Env) : StyluaInfo × Bool :=
  match e.settingPath with
  | some s =>
      if s ≠ "" then
        match e.reactSettingPath with
        | some r =>
            if r ≠ "" then (⟨(s, r), .configuration, none⟩, false)
            else (⟨(s, s), .configuration, none⟩, false)
        | none => (⟨(s, s), .configuration, none⟩, false)
      else findFallback e
  | none => findFallback e

/-- The bundled-tier version reconciliation against the desired version
(download.ts lines 110-121): with a truthy installed version and a desired
version other than "latest", a successful `semver.coerce` of the desired
string and `semver.parse` of the installed string that compare unequal open
the incorrect-version prompt (the VersionMismatch signal, carrying the
installed and requested strings). -/
def mismatchCheck (version : Option String) (desired : String) :
    Option (String × String) :=
  match version with
  | none => none
  | some v =>
      if v ≠ "" then
        if desired ≠ "latest" then
          match coerceSemver desired, parseSemver v with
          | some d, some i => if d ≠ i then some (v, desired) else none
          | _, _ => none
        else none
      else none

/-- The update-availability signal of the bundled tier. -/
inductive UpdateSignal where
  /-- The branch was not reached (non-bundled modes). -/
  | noCheck : UpdateSignal
  /-- `statusBarUpdateItem.hide()`. -/
  | hidden : UpdateSignal
  /-- `showUpdateAvailable(release)`. -/
  | available (r : GitHubRelease) : UpdateSignal
  /-- The latest-release fetch threw: a warning is shown (and, unauthenticated,
  an interactive retry is offered — the retry itself is an external UI flow). -/
  | fetchFailed : UpdateSignal
deriving DecidableEq

/-- The latest-version check of the bundled tier (download.ts lines 123-136):
disabled checking hides the affordance; otherwise the installed version is
compared against the latest tag with a leading "v" stripped. -/
def updateCheck (disable : Bool) (version : Option String)
    (latest : Except Unit GitHubRelease) : UpdateSignal :=
  if disable then .hidden
  else
    match latest with
    | .ok r =>
        if version = some (if jsStartsWith r.tagName "v" then r.tagName.drop 1 else r.tagName)
        then .hidden
        else .available r
    | .error _ => .fetchFailed

/-- The observable outcome of one `ensureStyluaExists` pass. -/
structure EnsureResult where
  /-- The returned StyluaInfo (none models the `undefined` return of a missing
  configured path). -/
  info : Option StyluaInfo
  /-- Whether `which` was consulted. -/
  consultedPATH : Bool
  /-- Whether `downloadStyluaVisual(getDesiredVersion())` was triggered. -/
  downloaded : Bool
  /-- The VersionMismatch signal. -/
  mismatch : Option (String × String)
  /-- The UpdateAvailable signal. -/
  update : UpdateSignal
deriving DecidableEq

/-- Embedding of `ensureStyluaExists` (download.ts lines 92-182). The bundled
tier downloads when the file is absent, queries the installed version and
runs both reconciliation checks; the configuration tier only checks existence
(returning `undefined` on a missing path) and queries the version; the PATH
tier only queries the version. -/
def ensureStyluaExists (e : Env) (t : StyluaType) : EnsureResult :=
  let fs := findStylua e
  let info := fs.1
  let pathT := if t = .standard then info.paths.1 else info.paths.2
  match info.resolveMode with
  | .bundled =>
      let version := e.versionOf pathT
      ⟨some ⟨info.paths, info.resolveMode, version⟩, fs.2,
        !e.fileExistsAt pathT,
        mismatchCheck version e.desiredVersion,
        updateCheck e.disableVersionCheck version e.getLatest⟩
  | .configuration =>
      if e.fileExistsAt pathT then
        ⟨some ⟨info.paths, info.resolveMode, e.versionOf pathT⟩, fs.2, false, none, .noCheck⟩
      else ⟨none, fs.2, false, none, .noCheck⟩
  | .path =>
      ⟨some ⟨info.paths, info.resolveMode, e.versionOf pathT⟩, fs.2, false, none, .noCheck⟩

/-! ## Supporting definitions for the stated properties -/

/-- The platform identifiers accepted by utilities.ts. -/
def supportedPlatforms : List String := ["win32", "linux", "darwin"]

/-- A canonical artifact-name fragment per supported platform (for win32 the
`windows` alternative is used). -/
def platFragment (platform : String) : String :=
  if platform = "win32" then "windows"
  else if platform = "linux" then "linux"
  else "macos"

/-- The artifact-name architecture segment: present for the two recognized
architectures, absent otherwise (legacy single-architecture artifacts). -/
def archSuffix (architecture : String) : String :=
  if architecture = "arm64" then "-aarch64"
  else if architecture = "x64" then "-x86_64"
  else ""

/-- A plausible released artifact name for a platform/architecture pair,
of the shape tool-(version)-(platform)(-arch).zip. -/
def candidateAssetName (platform architecture : String) : String :=
  "stylua-2.1.0-" ++ platFragment platform ++ archSuffix architecture ++ ".zip"

/-- An installed version has no trailing whitespace character. -/
def noTrailingWs (s : String) : Bool :=
  s.data.getLast?.all fun c => !isJsWs c

/-! ## Concrete test environments (used by witness statements) -/

/-- A release whose only asset name matches no computed pattern, paired with
the real win32/x64 pattern. -/
def dlEnvNoMatchW : DlEnv :=
  ⟨⟨[⟨"https://example/source.tar.gz", "source.tar.gz"⟩], "", "v2.1.0"⟩,
   (fun n => rxTest (computedPattern "win32" "x64") n), "stylua.exe",
   some [1, 2], .entries []⟩

/-- A second no-matching-asset environment, with a previous binary [7] on
disk. -/
def dlEnvNoMatchAsset : DlEnv :=
  ⟨⟨[⟨"https://example/README.md", "README.md"⟩], "", "v2.1.0"⟩,
   (fun n => rxTest (computedPattern "win32" "x64") n), "stylua.exe",
   some [7], .entries []⟩

/-- A run in which the matched asset's archive entry fails mid-stream after
delivering one byte, over a previous binary [1, 2, 3]. -/
def dlEnvTrunc : DlEnv :=
  ⟨⟨[⟨"https://example/stylua-2.1.0-win64.zip", "stylua-2.1.0-win64.zip"⟩], "", "v2.1.0"⟩,
   (fun n => rxTest (computedPattern "win32" "x64") n), "stylua.exe",
   some [1, 2, 3], .entries [⟨"stylua.exe", .truncated [9]⟩]⟩

/-- An environment with an explicitly configured primary path and every other
acquisition trigger armed (PATH search on and resolvable, file present). -/
def envConfigW : Env :=
  ⟨some "/opt/stylua", none, true, some "/usr/bin/stylua",
   (fun _ => some "2.0.0"), "/store/stylua.exe", (fun _ => true),
   "1.2.0", false, .ok ⟨[], "", "v9.9.9"⟩⟩

/-- The latest release record used in update-check witnesses. -/
def relLatestW : GitHubRelease := ⟨[], "https://example/r", "v2.0.0"⟩

/-- A small release history for getRelease witnesses. -/
def relsW : List GitHubRelease :=
  [⟨[], "", "v0.5.0"⟩, ⟨[], "", "v1.2.0"⟩]

/-! ## Helper lemmas -/

/-- The element returned by a successful `find?` satisfies the test and is the
first such element of the list. -/
theorem find?_first {α : Type} (p : α → Bool) (l : List α) (r : α)
    (h : l.find? p = some r) :
    p r = true ∧ ∃ l₁ l₂, l = l₁ ++ r :: l₂ ∧ ∀ x ∈ l₁, p x = false := by
  induction l with
  | nil => cases h
  | cons a as ih =>
      by_cases hp : p a = true
      · rw [List.find?_cons_of_pos as hp] at h
        obtain rfl : a = r := by injection h
        exact ⟨hp, [], as, rfl, by simp⟩
      · rw [List.find?_cons_of_neg as hp] at h
        obtain ⟨h1, l₁, l₂, rfl, hall⟩ := ih h
        refine ⟨h1, a :: l₁, l₂, rfl, ?_⟩
        intro x hx
        rcases List.mem_cons.mp hx with rfl | hx
        · exact Bool.not_eq_true _ ▸ by simpa using hp
        · exact hall x hx

/-- Mapping `assetFromJson` over non-null asset elements cannot throw. -/
theorem assetFromJson_ok (x : Json) (h : isNull x = false) :
    ∃ y, assetFromJson x = .ok y := by
  cases x <;> simp [isNull] at h ⊢ <;> exact ⟨_, rfl⟩

/-- Lifting `assetFromJson_ok` through `mapM`. -/
theorem mapM_assetFromJson_ok (xs : List Json) (h : ∀ x ∈ xs, isNull x = false) :
    ∃ ys, xs.mapM assetFromJson = Except.ok ys := by
  induction xs with
  | nil => exact ⟨[], rfl⟩
  | cons x xs ih =>
      obtain ⟨y, hy⟩ := assetFromJson_ok x (h x (by simp))
      obtain ⟨ys, hys⟩ := ih fun a ha => h a (by simp [ha])
      refine ⟨y :: ys, ?_⟩
      rw [List.mapM_cons, hy, hys]
      rfl

/-! ## Claim theorems: acquisition pipeline -/

/-- C10: for every release whose asset list contains no name matching the
computed asset pattern, `downloadStylua` returns a promise that resolves
successfully (the operation settles, no error is raised) and the file at the
storage path is neither created nor modified. -/
theorem downloadStylua_no_match_resolves (e : DlEnv)
    (h : ∀ a ∈ e.release.assets, e.assetTest a.name = false) :
    runDownload e = (Outcome.resolved, e.prevFile) := by
  unfold runDownload
  have hf : e.release.assets.find? (fun a => e.assetTest a.name) = none := by
    rw [List.find?_eq_none]
    intro a ha
    simp [h a ha]
  rw [hf]

theorem downloadStylua_no_match_resolves_witness :
    (∀ a ∈ dlEnvNoMatchW.release.assets, dlEnvNoMatchW.assetTest a.name = false) ∧
    runDownload dlEnvNoMatchW = (Outcome.resolved, some [1, 2]) :=
  ⟨by decide, downloadStylua_no_match_resolves dlEnvNoMatchW (by decide)⟩

/-- C1: evaluation of `downloadStylua` on a release whose only asset matches
no pattern. The returned promise resolves successfully and silently — it does
not fail with a NoMatchingAsset error (nor hang); the spec marks the missing
explicit failure as a defect of the source. -/
theorem downloadStylua_no_match_not_explicit_failure :
    runDownload dlEnvNoMatchAsset = (Outcome.resolved, some [7]) ∧
    (runDownload dlEnvNoMatchAsset).1 ≠ Outcome.rejected := by
  decide

/-- C4 (counterexample): a matched asset whose archive entry errors after one
byte leaves the storage path holding the partial byte [9] instead of the
previous binary [1, 2, 3], although the write did not complete cleanly — the
previous binary is not "replaced only on clean completion". -/
theorem downloadStylua_corruption_counterexample :
    (runDownload dlEnvTrunc).1 ≠ Outcome.resolved ∧
    (runDownload dlEnvTrunc).2 ≠ dlEnvTrunc.prevFile ∧
    (runDownload dlEnvTrunc).2 = some [9] := by
  decide

/-- C4 (amended): the write stream opens the storage path itself and truncates
the previous binary as soon as an asset matches, so the final content of the
storage path is independent of the previous binary; the previous binary
survives exactly the runs in which no asset matches (in which case the
operation resolves without writing). -/
theorem downloadStylua_truncates_on_match (e : DlEnv) (p : Option (List Nat)) :
    (e.release.assets.find? (fun a => e.assetTest a.name) = none →
      runDownload e = (Outcome.resolved, e.prevFile)) ∧
    (e.release.assets.find? (fun a => e.assetTest a.name) ≠ none →
      (runDownload e).2 =
        (runDownload ⟨e.release, e.assetTest, e.outputFilename, p, e.fetchOutcome⟩).2) := by
  constructor
  · intro h
    unfold runDownload
    rw [h]
  · intro h
    cases hf : e.release.assets.find? (fun a => e.assetTest a.name) with
    | none => exact absurd hf h
    | some a =>
        unfold runDownload
        dsimp only
        rw [hf]

theorem downloadStylua_truncates_on_match_witness :
    (runDownload dlEnvNoMatchAsset = (Outcome.resolved, some [7])) ∧
    ((runDownload dlEnvTrunc).2 =
      (runDownload ⟨dlEnvTrunc.release, dlEnvTrunc.assetTest, dlEnvTrunc.outputFilename,
        none, dlEnvTrunc.fetchOutcome⟩).2) :=
  ⟨(downloadStylua_truncates_on_match dlEnvNoMatchAsset none).1 (by decide),
   (downloadStylua_truncates_on_match dlEnvTrunc none).2 (by decide)⟩

/-! ## Claim theorems: release parsing -/

/-- C2 (counterexample): `releaseFromJson` applied to the JSON value `null`
throws a TypeError — in JavaScript `typeof null === "object"`, so `null`
slips past the guard and the property read `json.assets` throws. Parsing is
not exception-free on every payload. -/
theorem releaseFromJson_null_throws :
    releaseFromJson Json.null = .error () := by
  rfl

/-- C2 (amended): for every JSON release payload other than `null` itself
(and whose assets array, when present, carries no null element),
`releaseFromJson` never throws and yields a well-formed record with missing
or malformed fields defaulted; and `getAllReleases` yields the empty list for
every non-array top-level response. -/
theorem releaseParsing_defensive (j : Json) :
    (jsonSafe j = true → ∃ rec, releaseFromJson j = .ok rec) ∧
    (isArrayJson j = false → getAllReleasesModel j = .ok []) := by
  constructor
  · intro h
    cases j with
    | null => simp [jsonSafe] at h
    | bool b => exact ⟨⟨[], "", ""⟩, rfl⟩
    | num n => exact ⟨⟨[], "", ""⟩, rfl⟩
    | str s => exact ⟨⟨[], "", ""⟩, rfl⟩
    | arr xs => exact ⟨⟨[], "", ""⟩, rfl⟩
    | obj fields =>
        unfold releaseFromJson
        simp only [jsTypeofNotObject, if_false, Bool.false_eq_true, ite_false, getProp]
        simp only [jsonSafe] at h
        cases hl : lookupField fields "assets" with
        | undefined => exact ⟨_, rfl⟩
        | val v =>
            cases v with
            | arr xs =>
                rw [hl] at h
                obtain ⟨ys, hys⟩ := mapM_assetFromJson_ok xs (by
                  intro x hx
                  have := List.all_eq_true.mp h x hx
                  simpa using this)
                simp only [jsValIsArray, if_true, jsValElems]
                rw [hys]
                exact ⟨_, rfl⟩
            | null => exact ⟨_, rfl⟩
            | bool b => exact ⟨_, rfl⟩
            | num n => exact ⟨_, rfl⟩
            | str s => exact ⟨_, rfl⟩
            | obj fs => exact ⟨_, rfl⟩
  · intro h
    cases j <;> simp [isArrayJson] at h ⊢ <;> rfl

theorem releaseParsing_defensive_witness :
    (∃ rec, releaseFromJson (Json.obj [("assets", Json.num 1)]) = .ok rec) ∧
    getAllReleasesModel (Json.str "API rate limit exceeded") = .ok [] :=
  ⟨(releaseParsing_defensive (Json.obj [("assets", Json.num 1)])).1 (by rfl),
   (releaseParsing_defensive (Json.str "API rate limit exceeded")).2 (by rfl)⟩

/-! ## Claim theorems: binary resolver precedence -/

/-- C3: whenever the primary path setting is configured and non-empty,
resolution returns a Configuration-mode result whose standard variant is the
configured path and whose secondary variant is the distinct configured
secondary path when one is set (and the primary path otherwise); the PATH
lookup is never consulted and no download is ever triggered, whatever every
other setting or environment answer is. -/
theorem findStylua_configuration_short_circuits (e : Env) (t : StyluaType) (s : String)
    (hs : e.settingPath = some s) (hns : s ≠ "") :
    (findStylua e).1.resolveMode = ResolveMode.configuration ∧
    (findStylua e).1.paths =
      (s, if truthy e.reactSettingPath then e.reactSettingPath.getD "" else s) ∧
    (findStylua e).2 = false ∧
    (ensureStyluaExists e t).consultedPATH = false ∧
    (ensureStyluaExists e t).downloaded = false := by
  have hfind : findStylua e =
      (⟨(s, if truthy e.reactSettingPath then e.reactSettingPath.getD "" else s),
        .configuration, none⟩, false) := by
    unfold findStylua
    rw [hs]
    dsimp only
    rw [if_pos hns]
    cases hr : e.reactSettingPath with
    | none => simp [truthy]
    | some r =>
        by_cases hre : r = ""
        · subst hre
          simp [truthy]
        · simp [truthy, hre]
  refine ⟨by rw [hfind], by rw [hfind], by rw [hfind], ?_, ?_⟩ <;>
    · unfold ensureStyluaExists
      rw [hfind]
      dsimp only
      split <;> split <;> first
        | rfl
        | (split <;> rfl)

theorem findStylua_configuration_short_circuits_witness :
    (findStylua envConfigW).1.resolveMode = ResolveMode.configuration ∧
    (findStylua envConfigW).1.paths =
      ("/opt/stylua",
        if truthy envConfigW.reactSettingPath then envConfigW.reactSettingPath.getD ""
        else "/opt/stylua") ∧
    (findStylua envConfigW).2 = false ∧
    (ensureStyluaExists envConfigW StyluaType.standard).consultedPATH = false ∧
    (ensureStyluaExists envConfigW StyluaType.standard).downloaded = false :=
  findStylua_configuration_short_circuits envConfigW StyluaType.standard "/opt/stylua"
    rfl (by decide)

/-! ## Claim theorems: version reconciliation -/

/-- C5 (counterexample): with desired version "1.2.0" and installed version
"1.3", both strings coerce to semantic versions (1.2.0 and 1.3.0) that
differ, yet no VersionMismatch signal is raised — the source parses the
installed string with the strict `semver.parse`, which rejects "1.3", rather
than coercing both sides. -/
theorem mismatchCheck_coerce_counterexample :
    coerceSemver "1.2.0" = some ⟨1, 2, 0⟩ ∧
    coerceSemver "1.3" = some ⟨1, 3, 0⟩ ∧
    (⟨1, 2, 0⟩ : SemVer) ≠ ⟨1, 3, 0⟩ ∧
    ("1.2.0" : String) ≠ "latest" ∧
    mismatchCheck (some "1.3") "1.2.0" = none := by
  decide

/-- An installed version accepted by the strict parse is nonempty. -/
theorem parseSemver_ne_empty (v : String) (i : SemVer) (h : parseSemver v = some i) :
    v ≠ "" := by
  intro hv
  subst hv
  simp [parseSemver, jsTrimList] at h

/-- C5 (amended): for every desired version other than the literal "latest",
when the desired version coerces to a semantic version and the installed
binary's reported version parses as a (strict) semantic version, a
VersionMismatch signal is raised if and only if the two semantic versions
differ; when the desired version is "latest", no mismatch check is performed
for any installed version. -/
theorem mismatchCheck_characterization :
    (∀ (v desired : String) (d i : SemVer),
      desired ≠ "latest" → coerceSemver desired = some d → parseSemver v = some i →
      (mismatchCheck (some v) desired = some (v, desired) ↔ d ≠ i)) ∧
    (∀ version : Option String, mismatchCheck version "latest" = none) := by
  constructor
  · intro v desired d i hdes hco hpa
    have hv : v ≠ "" := parseSemver_ne_empty v i hpa
    unfold mismatchCheck
    dsimp only
    rw [if_pos hv, if_pos hdes, hco, hpa]
    by_cases hdi : d = i
    · simp [hdi]
    · simp [hdi]
  · intro version
    cases version with
    | none => rfl
    | some v =>
        unfold mismatchCheck
        dsimp only
        by_cases hv : v = ""
        · subst hv
          rfl
        · rw [if_pos hv]
          simp

theorem mismatchCheck_characterization_witness :
    (mismatchCheck (some "1.3.0") "1.2.0" = some ("1.3.0", "1.2.0") ↔
      (⟨1, 2, 0⟩ : SemVer) ≠ ⟨1, 3, 0⟩) ∧
    mismatchCheck (some "9.9.9") "latest" = none :=
  ⟨mismatchCheck_characterization.1 "1.3.0" "1.2.0" ⟨1, 2, 0⟩ ⟨1, 3, 0⟩
      (by decide) (by decide) (by decide),
   mismatchCheck_characterization.2 (some "9.9.9")⟩

/-- C6: when version checking is not disabled and the latest release is
fetched successfully, the update affordance is hidden exactly when the
installed version string equals the latest tag with its leading "v"
stripped; otherwise the UpdateAvailable signal carrying that release record
is raised. -/
theorem updateCheck_latest_comparison (s : String) (r : GitHubRelease) :
    (s = (if jsStartsWith r.tagName "v" then r.tagName.drop 1 else r.tagName) →
      updateCheck false (some s) (.ok r) = .hidden) ∧
    (s ≠ (if jsStartsWith r.tagName "v" then r.tagName.drop 1 else r.tagName) →
      updateCheck false (some s) (.ok r) = .available r) := by
  constructor
  · intro h
    unfold updateCheck
    dsimp only
    have hs : some s = some (if jsStartsWith r.tagName "v" then r.tagName.drop 1 else r.tagName) := by
      rw [h]
    rw [if_pos hs]
    rfl
  · intro h
    unfold updateCheck
    dsimp only
    have hs : ¬some s = some (if jsStartsWith r.tagName "v" then r.tagName.drop 1 else r.tagName) := by
      simpa using h
    rw [if_neg hs]
    rfl

theorem updateCheck_latest_comparison_witness :
    updateCheck false (some "2.0.0") (.ok relLatestW) = .hidden ∧
    updateCheck false (some "1.9.0") (.ok relLatestW) = .available relLatestW :=
  ⟨(updateCheck_latest_comparison "2.0.0" relLatestW).1 (by decide),
   (updateCheck_latest_comparison "1.9.0" relLatestW).2 (by decide)⟩

/-! ## Claim theorems: release lookup -/

/-- C7: for every version string other than the literal "latest", `getRelease`
normalizes the string to carry a leading "v" (adding it only when absent),
returns the first release of the listing whose tag starts with the normalized
string, and throws NoReleaseFoundError when no tag matches. -/
theorem getRelease_scan (latest : GitHubRelease) (rels : List GitHubRelease)
    (version : String) (hv : version ≠ "latest") :
    jsStartsWith (normalizeTag version) "v" = true ∧
    (jsStartsWith version "v" = true → normalizeTag version = version) ∧
    (∀ r, getRelease latest rels version = .ok r →
      jsStartsWith r.tagName (normalizeTag version) = true ∧
      ∃ l₁ l₂, rels = l₁ ++ r :: l₂ ∧
        ∀ x ∈ l₁, jsStartsWith x.tagName (normalizeTag version) = false) ∧
    ((∀ r ∈ rels, jsStartsWith r.tagName (normalizeTag version) = false) →
      getRelease latest rels version = .error .noReleaseFound) := by
  refine ⟨?_, ?_, ?_, ?_⟩
  · unfold normalizeTag
    by_cases h : jsStartsWith version "v" = true
    · rw [if_pos h]
      exact h
    · rw [if_neg h]
      unfold jsStartsWith
      rw [String.data_append]
      simp [List.isPrefixOf]
  · intro h
    unfold normalizeTag
    rw [if_pos h]
  · intro r hr
    unfold getRelease at hr
    rw [if_neg hv] at hr
    cases hf : rels.find? (fun x => jsStartsWith x.tagName (normalizeTag version)) with
    | none => rw [hf] at hr; cases hr
    | some r' =>
        rw [hf] at hr
        obtain rfl : r' = r := by injection hr
        exact find?_first _ rels _ hf
  · intro hall
    unfold getRelease
    rw [if_neg hv]
    have hf : rels.find? (fun x => jsStartsWith x.tagName (normalizeTag version)) = none := by
      rw [List.find?_eq_none]
      intro x hx
      simp [hall x hx]
    rw [hf]

theorem getRelease_scan_witness :
    jsStartsWith (normalizeTag "1.2.0") "v" = true ∧
    getRelease ⟨[], "", ""⟩ relsW "9.9.9" = .error .noReleaseFound :=
  ⟨(getRelease_scan ⟨[], "", ""⟩ relsW "1.2.0" (by decide)).1,
   (getRelease_scan ⟨[], "", ""⟩ relsW "9.9.9" (by decide)).2.2.2 (by decide)⟩

/-! ## Claim theorems: asset matcher -/

/-- C8: for every supported platform identifier (win32, linux, darwin) paired
with any architecture string, the computed pattern matches the plausible
artifact name of the shape tool-(version)-(platform)(-arch).zip built for
that pair and rejects the names carrying another supported platform's
fragment; for every platform identifier outside that set the computation
fails with the BadPlatformError (UnsupportedPlatform). -/
theorem patternFor_supported (architecture : String) :
    (∀ p ∈ supportedPlatforms,
      ∃ rx, getAssetFilenamePatternForPlatform p architecture = .ok rx ∧
        rxTest rx (candidateAssetName p architecture) = true ∧
        ∀ q ∈ supportedPlatforms, q ≠ p →
          rxTest rx (candidateAssetName q architecture) = false) ∧
    (∀ p, p ∉ supportedPlatforms →
      getAssetFilenamePatternForPlatform p architecture = .error .badPlatform) := by
  constructor
  · intro p hp
    by_cases ha1 : architecture = "arm64"
    · subst ha1
      fin_cases hp
      · exact ⟨_, rfl, by decide, by decide⟩
      · exact ⟨_, rfl, by decide, by decide⟩
      · exact ⟨_, rfl, by decide, by decide⟩
    · by_cases ha2 : architecture = "x64"
      · subst ha2
        fin_cases hp
        · exact ⟨_, rfl, by decide, by decide⟩
        · exact ⟨_, rfl, by decide, by decide⟩
        · exact ⟨_, rfl, by decide, by decide⟩
      · have harx : archRx architecture = .eps := by
          unfold archRx
          rw [if_neg ha1, if_neg ha2]
        have hsuf : archSuffix architecture = "" := by
          unfold archSuffix
          rw [if_neg ha1, if_neg ha2]
        fin_cases hp
        · refine ⟨assetRx (.alt (litRx "windows") (litRx "win64")) .eps, ?_, ?_, ?_⟩
          · unfold getAssetFilenamePatternForPlatform
            rw [show platformRx "win32" = .ok (.alt (litRx "windows") (litRx "win64")) from rfl]
            rw [harx]
          · simp only [candidateAssetName, hsuf]
            decide
          · intro q hq hqp
            fin_cases hq
            · exact absurd rfl hqp
            · simp only [candidateAssetName, hsuf]
              decide
            · simp only [candidateAssetName, hsuf]
              decide
        · refine ⟨assetRx (litRx "linux") .eps, ?_, ?_, ?_⟩
          · unfold getAssetFilenamePatternForPlatform
            rw [show platformRx "linux" = .ok (litRx "linux") from rfl]
            rw [harx]
          · simp only [candidateAssetName, hsuf]
            decide
          · intro q hq hqp
            fin_cases hq
            · simp only [candidateAssetName, hsuf]
              decide
            · exact absurd rfl hqp
            · simp only [candidateAssetName, hsuf]
              decide
        · refine ⟨assetRx (litRx "macos") .eps, ?_, ?_, ?_⟩
          · unfold getAssetFilenamePatternForPlatform
            rw [show platformRx "darwin" = .ok (litRx "macos") from rfl]
            rw [harx]
          · simp only [candidateAssetName, hsuf]
            decide
          · intro q hq hqp
            fin_cases hq
            · simp only [candidateAssetName, hsuf]
              decide
            · simp only [candidateAssetName, hsuf]
              decide
            · exact absurd rfl hqp
  · intro p hp
    simp only [supportedPlatforms, List.mem_cons, List.not_mem_nil, or_false, not_or] at hp
    obtain ⟨h1, h2, h3⟩ := hp
    unfold getAssetFilenamePatternForPlatform platformRx
    rw [if_neg h1, if_neg h2, if_neg h3]

theorem patternFor_supported_witness :
    (∃ rx, getAssetFilenamePatternForPlatform "linux" "x64" = .ok rx ∧
      rxTest rx (candidateAssetName "linux" "x64") = true) ∧
    getAssetFilenamePatternForPlatform "plan9" "arm64" = .error .badPlatform := by
  constructor
  · obtain ⟨rx, h1, h2, h3⟩ := (patternFor_supported "x64").1 "linux" (by decide)
    exact ⟨rx, h1, h2⟩
  · exact (patternFor_supported "arm64").2 "plan9" (by decide)

/-! ## Claim theorems: version-output round trip -/

/-- Trimming is the identity on a concatenation whose first character and
last character are not whitespace. -/
theorem jsTrimList_clean (pre l : List Char) (c0 : Char)
    (hpre : pre.head? = some c0) (hc0 : isJsWs c0 = false)
    (hl : l ≠ []) (hlast : ∀ c, l.getLast? = some c → isJsWs c = false) :
    jsTrimList (pre ++ l) = pre ++ l := by
  cases pre with
  | nil => cases hpre
  | cons a as =>
      have ha : isJsWs a = false := by
        have haeq : a = c0 := by injection hpre
        rw [haeq]
        exact hc0
      have h1 : ((a :: as) ++ l).dropWhile isJsWs = (a :: as) ++ l := by
        rw [List.cons_append]
        simp [List.dropWhile_cons, ha]
      have h2 : ((a :: as) ++ l).reverse.dropWhile isJsWs = ((a :: as) ++ l).reverse := by
        rw [List.reverse_append]
        cases hr : l.reverse with
        | nil => exact absurd (List.reverse_eq_nil_iff.mp hr) hl
        | cons d ds =>
            have hd : l.getLast? = some d := by
              rw [← List.head?_reverse, hr]
              rfl
            rw [List.cons_append]
            simp [List.dropWhile_cons, hlast d hd]
      calc jsTrimList ((a :: as) ++ l)
          = ((((a :: as) ++ l).dropWhile isJsWs).reverse.dropWhile isJsWs).reverse := rfl
        _ = (((a :: as) ++ l).reverse.dropWhile isJsWs).reverse := by rw [h1]
        _ = ((a :: as) ++ l).reverse.reverse := by rw [h2]
        _ = (a :: as) ++ l := by rw [List.reverse_reverse]

/-- C9 (counterexample): a version string consisting of a single space, written
after the fixed "stylua " literal, parses back to the empty string rather
than to itself — the source trims the whole stdout before slicing, so a
version token with trailing whitespace does not round-trip. -/
theorem parseVersionOutput_roundtrip_counterexample :
    parseVersionOutput ("stylua " ++ " ") ≠ " " := by
  decide

/-- C9 (amended): for every version string with no trailing whitespace
character, querying a binary whose stdout is the fixed literal "stylua "
followed by that string yields back exactly the string. -/
theorem parseVersionOutput_roundtrip (s : String) (h : noTrailingWs s = true) :
    parseVersionOutput ("stylua " ++ s) = s := by
  cases hsd : s.data with
  | nil =>
      have hempty : ("" : String).data = [] := rfl
      have hs : s = "" := String.ext (hsd.trans hempty.symm)
      rw [hs]
      decide
  | cons c0 rest =>
      unfold parseVersionOutput
      rw [String.data_append]
      have hlast : ∀ c, s.data.getLast? = some c → isJsWs c = false := by
        intro c hc
        unfold noTrailingWs at h
        rw [hc] at h
        simpa using h
      rw [jsTrimList_clean "stylua ".data s.data 's' (by decide) (by decide)
        (by rw [hsd]; exact List.cons_ne_nil c0 rest) hlast]
      rw [show ("stylua " : String).length = ("stylua ".data).length from rfl]
      rw [List.drop_left]

theorem parseVersionOutput_roundtrip_witness :
    parseVersionOutput ("stylua " ++ "2.1.0") = "2.1.0" :=
  parseVersionOutput_roundtrip "2.1.0" (by decide)
